import Mathlib

/-!
Verification of the batch scheduling and failure-classification core of
`run_openfold_batch.py`.

The embedding models the pure decision logic of the script:
* `run_one_classify` — the exit-code/marker classification performed by
  `run_one` (source lines 57-72) on the captured text;
* `log_tail_or_empty` / `run_one_file_mode` — the to-file capture mode, where
  the post-run tail read may fail and is then treated as empty text
  (source lines 47-55);
* `child_env` — the environment handed to the child process
  (source lines 27-29);
* `assign_gpus` / `collect_results` — the scheduling loop of `run_tasks`
  (source lines 84-98); the nondeterministic completion order produced by
  `as_completed` is modelled by quantifying over an arbitrary permutation of
  the submitted tasks;
* `LoopR` / `DriverR` — the retry driver of `main` (source lines 178-194);
* `PoolStep` — a transition system for the bounded worker pool.

Child process execution itself is external: it is represented by an oracle
`outcome : Job → Int` giving the final return code `run_one` computes for a
submitted job (or `Job → Except String Int` where spawn failure matters).
-/

namespace OpenfoldBatch

/-- A task tuple `(cmd, gpu_id, seed_name, log_file)` as built by `main` and
consumed by `run_tasks` (source lines 77, 169). -/
structure Job where
  cmd : List String
  gpu : Int
  seedName : String
  logFile : Option String
deriving DecidableEq, Inhabited

/-- The fixed failure markers `err_markers` of `run_one` (source lines 58-66). -/
def err_markers : List String :=
  ["Traceback (most recent call last)",
   "ValueError:",
   "RuntimeError:",
   "AssertionError:",
   "Error:",
   "Exception:",
   "More than one input sequence found"]

/-- `any(m in lower for m in err_markers)` (source line 69): a literal,
case-sensitive substring scan of the captured text. -/
def contains_marker (text : String) : Bool :=
  err_markers.any (fun m => decide (m.toList <:+: text.toList))

/-- The verdict computation of `run_one` (source lines 67-72): starting from
the child's return code `ret` and the captured text, override a zero return
code to `1` when a failure marker occurs in the text. -/
def run_one_classify (ret : Int) (text : String) : Int :=
  if ret = 0 then
    (if contains_marker text then 1 else ret)
  else ret

/-- The `try/except` around the post-run tail read (source lines 47-55): a
failed read (`none`) yields empty text. -/
def log_tail_or_empty (readResult : Option String) : String :=
  match readResult with
  | some s => s
  | none => ""

/-- `run_one` in to-file capture mode, after the child exited with `ret`:
classify using the tail text when the read succeeded, empty text otherwise. -/
def run_one_file_mode (ret : Int) (readResult : Option String) : Int :=
  run_one_classify ret (log_tail_or_empty readResult)

/-- Claim C1: `run_one` classifies a job as succeeded (final return code `0`)
iff the child exited `0` and no failure marker occurs in the captured text; a
zero exit with a marker present is overridden to the synthetic failing code
`1`, and a nonzero exit is passed through unchanged, hence never succeeds. -/
theorem run_one_verdict_iff (ret : Int) (text : String) :
    (run_one_classify ret text = 0 ↔ ret = 0 ∧ contains_marker text = false) ∧
    (ret = 0 → contains_marker text = true → run_one_classify ret text = 1) ∧
    (ret ≠ 0 → run_one_classify ret text = ret ∧ run_one_classify ret text ≠ 0) := by
  unfold run_one_classify
  by_cases hr : ret = 0 <;> by_cases hm : contains_marker text <;>
    simp [hr, hm]

/-- Witness for C1 at concrete inputs. -/
theorem run_one_verdict_iff_witness :
    run_one_classify 0 "ValueError: bad shape" = 1 ∧
    run_one_classify 2 "all good" = 2 := by
  refine ⟨(run_one_verdict_iff 0 "ValueError: bad shape").2.1 rfl (by decide), ?_⟩
  exact ((run_one_verdict_iff 2 "all good").2.2 (by decide)).1

/-- Claim C7: in to-file capture mode, a failed tail read degrades to empty
text — the marker scan finds nothing — and the verdict is the exit code
alone; no exception escapes the job runner. -/
theorem log_read_failure_degrades (ret : Int) :
    run_one_file_mode ret none = ret ∧
    contains_marker (log_tail_or_empty none) = false := by
  have h0 : contains_marker (log_tail_or_empty none) = false := by decide
  refine ⟨?_, h0⟩
  unfold run_one_file_mode run_one_classify
  by_cases hr : ret = 0 <;> simp [hr, h0]

/-- Claim C10: the marker scan is a case-sensitive literal substring test:
`contains_marker` holds exactly when some fixed marker is an infix of the
text; the generic markers make a zero exit with `CustomError:` or
`FooException:` in the output fail, while the differently-cased `ERROR:`
does not trigger. -/
theorem marker_scan_literal_case_sensitive :
    (∀ text : String,
      contains_marker text = true ↔ ∃ m ∈ err_markers, m.toList <:+: text.toList) ∧
    run_one_classify 0 "CustomError: fail" = 1 ∧
    run_one_classify 0 "FooException: fail" = 1 ∧
    run_one_classify 0 "ERROR: fail" = 0 := by
  refine ⟨fun text => ?_, by decide, by decide, by decide⟩
  simp [contains_marker, List.any_eq_true]

/-! ### Child process environment (source lines 27-29) -/

/-- `env[k] = v` on a dictionary modelled as a partial map. -/
def env_set (e : String → Option String) (k v : String) : String → Option String :=
  fun x => if x = k then some v else e x

/-- `env.setdefault(k, v)`: bind `k` to `v` only when `k` is absent. -/
def env_setdefault (e : String → Option String) (k v : String) :
    String → Option String :=
  fun x => if x = k then some ((e k).getD v) else e x

/-- The environment `run_one` builds for the child (source lines 27-29):
a copy of the current environment with `CUDA_VISIBLE_DEVICES` set to the
assigned GPU id and `CUDA_DEVICE_ORDER` defaulted to `PCI_BUS_ID`. -/
def child_env (base : String → Option String) (gpuId : Int) :
    String → Option String :=
  env_setdefault (env_set base "CUDA_VISIBLE_DEVICES" (toString gpuId))
    "CUDA_DEVICE_ORDER" "PCI_BUS_ID"

/-- Claim C6: the child environment is the current environment with exactly
two possible changes: `CUDA_VISIBLE_DEVICES` is the string form of the
assigned GPU id, `CUDA_DEVICE_ORDER` is defaulted to `PCI_BUS_ID` only when
absent, and every other variable passes through unchanged. -/
theorem child_env_frame (base : String → Option String) (gpuId : Int) :
    child_env base gpuId "CUDA_VISIBLE_DEVICES" = some (toString gpuId) ∧
    (base "CUDA_DEVICE_ORDER" = none →
      child_env base gpuId "CUDA_DEVICE_ORDER" = some "PCI_BUS_ID") ∧
    (∀ v, base "CUDA_DEVICE_ORDER" = some v →
      child_env base gpuId "CUDA_DEVICE_ORDER" = some v) ∧
    (∀ k, k ≠ "CUDA_VISIBLE_DEVICES" → k ≠ "CUDA_DEVICE_ORDER" →
      child_env base gpuId k = base k) := by
  unfold child_env env_setdefault env_set
  have hne : ("CUDA_DEVICE_ORDER" : String) ≠ "CUDA_VISIBLE_DEVICES" := by decide
  refine ⟨?_, ?_, ?_, ?_⟩
  · simp
  · intro h; simp [hne, h]
  · intro v h; simp [hne, h]
  · intro k h1 h2; simp [h1, h2]

/-- Witness for C6 on a concrete base environment. -/
theorem child_env_frame_witness :
    child_env (fun k => if k = "PATH" then some "/usr/bin" else none) 3
      "CUDA_VISIBLE_DEVICES" = some (toString (3 : Int)) ∧
    child_env (fun k => if k = "PATH" then some "/usr/bin" else none) 3
      "CUDA_DEVICE_ORDER" = some "PCI_BUS_ID" ∧
    child_env (fun k => if k = "PATH" then some "/usr/bin" else none) 3
      "PATH" = some "/usr/bin" := by
  have h := child_env_frame (fun k => if k = "PATH" then some "/usr/bin" else none) 3
  refine ⟨h.1, h.2.1 (by decide), ?_⟩
  have hp := h.2.2.2 "PATH" (by decide) (by decide)
  simpa using hp

/-! ### Spawn failure (source lines 32-45, 90-91) -/

/-- `run_one` with the child spawn modelled fallibly: `Popen`/`communicate`
has no exception handler in the source, so a spawn error propagates
unchanged and is never converted into a classified return code. -/
def run_one_spawn (spawn : Except String (Int × String)) : Except String Int :=
  match spawn with
  | Except.error e => Except.error e
  | Except.ok r => Except.ok (run_one_classify r.1 r.2)

/-- One iteration of the result-collection loop of `run_tasks`
(source lines 90-98) when `fut.result()` may re-raise a spawn exception. -/
def collect_step_exc (outcome : Job → Except String Int)
    (acc : List String × List Job) (t : Job) :
    Except String (List String × List Job) :=
  match outcome t with
  | Except.error e => Except.error e
  | Except.ok ret =>
      Except.ok (if ret = 0 then (acc.1 ++ [t.seedName], acc.2)
                 else (acc.1, acc.2 ++ [t]))

/-- The result-collection loop of `run_tasks` with exception propagation:
the first re-raised spawn exception aborts the whole collection. -/
def collect_results_exc (outcome : Job → Except String Int)
    (order : List Job) : Except String (List String × List Job) :=
  order.foldlM (collect_step_exc outcome) ([], [])

theorem collect_exc_no_ok (outcome : Job → Except String Int) :
    ∀ (order : List Job) (t : Job), t ∈ order →
      (∃ e, outcome t = Except.error e) →
      ∀ acc r, order.foldlM (collect_step_exc outcome) acc ≠ Except.ok r := by
  intro order
  induction order with
  | nil => intro t ht; cases ht
  | cons u us ih =>
      intro t ht he acc r
      rcases he with ⟨e, he⟩
      rcases List.mem_cons.mp ht with rfl | hmem
      · intro hcontra
        rw [List.foldlM_cons] at hcontra
        unfold collect_step_exc at hcontra
        rw [he] at hcontra
        exact Except.noConfusion hcontra
      · cases hu : collect_step_exc outcome acc u with
        | error eu =>
            intro hcontra
            rw [List.foldlM_cons, hu] at hcontra
            exact Except.noConfusion hcontra
        | ok acc2 =>
            intro hcontra
            rw [List.foldlM_cons, hu] at hcontra
            exact ih t hmem ⟨e, he⟩ acc2 r hcontra

/-- Claim C8: a spawn failure is not caught by the job runner — it is never
classified as a `Failed` verdict, and it propagates through the scheduler's
result collection, so the collection never produces a round result. -/
theorem spawn_failure_propagates (e : String) :
    run_one_spawn (Except.error e) = Except.error e ∧
    (∀ ret : Int, run_one_spawn (Except.error e) ≠ Except.ok ret) ∧
    (∀ (outcome : Job → Except String Int) (order : List Job) (t : Job),
      t ∈ order → outcome t = Except.error e →
      ∀ r, collect_results_exc outcome order ≠ Except.ok r) := by
  refine ⟨rfl, ?_, ?_⟩
  · intro ret h
    exact Except.noConfusion h
  · intro outcome order t ht he r
    exact collect_exc_no_ok outcome order t ht ⟨e, he⟩ ([], []) r

/-- Witness for C8 with a concrete missing-executable error and a
single-job round. -/
theorem spawn_failure_propagates_witness :
    run_one_spawn (Except.error "No such file or directory")
      = Except.error "No such file or directory" ∧
    collect_results_exc (fun _ => Except.error "No such file or directory")
      [⟨["python", "run.py"], -1, "seed_7778", none⟩] ≠ Except.ok ([], []) := by
  refine ⟨(spawn_failure_propagates "No such file or directory").1, ?_⟩
  exact (spawn_failure_propagates "No such file or directory").2.2
    (fun _ => Except.error "No such file or directory")
    [⟨["python", "run.py"], -1, "seed_7778", none⟩]
    ⟨["python", "run.py"], -1, "seed_7778", none⟩
    (List.mem_singleton.mpr rfl) rfl ([], [])

/-! ### The scheduling loop of `run_tasks` (source lines 84-98) -/

/-- The submission loop of `run_tasks` (source lines 85-88): the task at
position `i` is handed to `run_one` with `gpu_ids[i % len(gpu_ids)]`; the
placeholder gpu stored in the tuple is discarded, and the tuple kept for the
future carries the assigned gpu. -/
def assign_gpus (tasks : List Job) (gpuIds : List Int) : List Job :=
  tasks.enum.map fun p =>
    { cmd := p.2.cmd, gpu := gpuIds.getD (p.1 % gpuIds.length) 0,
      seedName := p.2.seedName, logFile := p.2.logFile }

/-- One iteration of the result-collection loop of `run_tasks`
(source lines 90-98): append the seed name to `ok` on a zero return code,
otherwise append the whole task tuple to `fail`. -/
def collect_step (outcome : Job → Int) (acc : List String × List Job)
    (t : Job) : List String × List Job :=
  if outcome t = 0 then (acc.1 ++ [t.seedName], acc.2)
  else (acc.1, acc.2 ++ [t])

/-- The result-collection loop of `run_tasks`, folded over the completion
order of the futures. -/
def collect_results (outcome : Job → Int) (order : List Job) :
    List String × List Job :=
  order.foldl (collect_step outcome) ([], [])

/-- `run_tasks tasks gpu_ids` as a relation: `as_completed` yields the
futures in an arbitrary order, so the collection runs over an arbitrary
permutation of the submitted (gpu-assigned) tasks. -/
def RoundR (outcome : Job → Int) (gpuIds : List Int) (tasks : List Job)
    (res : List String × List Job) : Prop :=
  ∃ order : List Job, order.Perm (assign_gpus tasks gpuIds) ∧
    res = collect_results outcome order

theorem collect_go (outcome : Job → Int) :
    ∀ (order : List Job) (ok : List String) (fail : List Job),
      order.foldl (collect_step outcome) (ok, fail) =
        (ok ++ (order.filter (fun t => decide (outcome t = 0))).map Job.seedName,
         fail ++ order.filter (fun t => !decide (outcome t = 0))) := by
  intro order
  induction order with
  | nil => intro ok fail; simp
  | cons t ts ih =>
      intro ok fail
      by_cases h : outcome t = 0
      · simp [List.foldl_cons, collect_step, h, ih, List.filter_cons]
      · simp [List.foldl_cons, collect_step, h, ih, List.filter_cons]

theorem collect_results_eq (outcome : Job → Int) (order : List Job) :
    collect_results outcome order =
      ((order.filter (fun t => decide (outcome t = 0))).map Job.seedName,
       order.filter (fun t => !decide (outcome t = 0))) := by
  have h := collect_go outcome order [] []
  simpa [collect_results] using h

theorem assign_gpus_map_field {β : Type} (f : Job → β)
    (hf : ∀ (t : Job) (g : Int),
      f { cmd := t.cmd, gpu := g, seedName := t.seedName, logFile := t.logFile }
        = f t)
    (tasks : List Job) (gpuIds : List Int) :
    (assign_gpus tasks gpuIds).map f = tasks.map f := by
  unfold assign_gpus
  rw [List.map_map]
  have hcomp :
      (f ∘ fun p : Nat × Job =>
        ({ cmd := p.2.cmd, gpu := gpuIds.getD (p.1 % gpuIds.length) 0,
           seedName := p.2.seedName, logFile := p.2.logFile } : Job))
        = f ∘ Prod.snd := by
    funext p
    exact hf p.2 (gpuIds.getD (p.1 % gpuIds.length) 0)
  rw [hcomp, ← List.map_map, List.enum_map_snd]

theorem assign_gpus_map_seedName (tasks : List Job) (gpuIds : List Int) :
    (assign_gpus tasks gpuIds).map Job.seedName = tasks.map Job.seedName :=
  assign_gpus_map_field Job.seedName (fun _ _ => rfl) tasks gpuIds

theorem round_names_perm {outcome : Job → Int} {gpuIds : List Int}
    {tasks : List Job} {res : List String × List Job}
    (h : RoundR outcome gpuIds tasks res) :
    (res.1 ++ res.2.map Job.seedName).Perm (tasks.map Job.seedName) := by
  obtain ⟨order, hperm, rfl⟩ := h
  simp only [collect_results_eq, ← List.map_append]
  refine ((List.filter_append_perm _ order).map Job.seedName).trans ?_
  rw [← assign_gpus_map_seedName tasks gpuIds]
  exact hperm.map Job.seedName

theorem round_names_nodup {outcome : Job → Int} {gpuIds : List Int}
    {tasks : List Job} {res : List String × List Job}
    (h : RoundR outcome gpuIds tasks res)
    (hnd : (tasks.map Job.seedName).Nodup) :
    (res.1 ++ res.2.map Job.seedName).Nodup :=
  (round_names_perm h).symm.nodup hnd

theorem round_ok_not_fail {outcome : Job → Int} {gpuIds : List Int}
    {tasks : List Job} {res : List String × List Job}
    (h : RoundR outcome gpuIds tasks res)
    (hnd : (tasks.map Job.seedName).Nodup)
    {name : String} (hok : name ∈ res.1) :
    name ∉ res.2.map Job.seedName := by
  have hnodup := round_names_nodup h hnd
  exact (List.nodup_append.mp hnodup).2.2 hok

theorem round_fail_carries {outcome : Job → Int} {gpuIds : List Int}
    {tasks : List Job} {res : List String × List Job}
    (h : RoundR outcome gpuIds tasks res) :
    ∀ t ∈ res.2, t ∈ assign_gpus tasks gpuIds ∧ outcome t ≠ 0 := by
  obtain ⟨order, hperm, rfl⟩ := h
  intro t ht
  rw [collect_results_eq] at ht
  have hmem := List.mem_filter.mp ht
  refine ⟨hperm.mem_iff.mp hmem.1, ?_⟩
  intro h0
  rw [h0] at hmem
  simp at hmem

theorem round_fail_names_subset {outcome : Job → Int} {gpuIds : List Int}
    {tasks : List Job} {res : List String × List Job}
    (h : RoundR outcome gpuIds tasks res) :
    ∀ x ∈ res.2.map Job.seedName, x ∈ tasks.map Job.seedName := by
  intro x hx
  obtain ⟨t, ht, rfl⟩ := List.mem_map.mp hx
  have hcar := (round_fail_carries h t ht).1
  rw [← assign_gpus_map_seedName tasks gpuIds]
  exact List.mem_map.mpr ⟨t, hcar, rfl⟩

theorem round_fail_nodup {outcome : Job → Int} {gpuIds : List Int}
    {tasks : List Job} {res : List String × List Job}
    (h : RoundR outcome gpuIds tasks res)
    (hnd : (tasks.map Job.seedName).Nodup) :
    (res.2.map Job.seedName).Nodup := by
  have hnodup := round_names_nodup h hnd
  exact (List.nodup_append.mp hnodup).2.1

theorem round_always_fail_mem {outcome : Job → Int} {gpuIds : List Int}
    {tasks : List Job} {res : List String × List Job}
    (h : RoundR outcome gpuIds tasks res) {name : String}
    (hmem : name ∈ tasks.map Job.seedName)
    (hf : ∀ t : Job, t.seedName = name → outcome t ≠ 0) :
    name ∈ res.2.map Job.seedName := by
  obtain ⟨order, hperm, rfl⟩ := h
  have hmem2 : name ∈ (assign_gpus tasks gpuIds).map Job.seedName := by
    rw [assign_gpus_map_seedName]; exact hmem
  have hmem3 : name ∈ order.map Job.seedName :=
    ((hperm.map Job.seedName).mem_iff).mpr hmem2
  obtain ⟨t, ht, rfl⟩ := List.mem_map.mp hmem3
  rw [collect_results_eq]
  refine List.mem_map.mpr ⟨t, ?_, rfl⟩
  refine List.mem_filter.mpr ⟨ht, ?_⟩
  simp [hf t rfl]

/-- Claim C2: each round partitions the submitted jobs — the succeeded names
together with the failed jobs' names form a permutation of the submitted
names (every job gets exactly one verdict, none is lost or duplicated), and
when the submitted names are distinct no name receives both verdicts. -/
theorem round_partitions (outcome : Job → Int) (gpuIds : List Int)
    (tasks : List Job) (res : List String × List Job)
    (h : RoundR outcome gpuIds tasks res) :
    (res.1 ++ res.2.map Job.seedName).Perm (tasks.map Job.seedName) ∧
    ((tasks.map Job.seedName).Nodup →
      ∀ name, ¬(name ∈ res.1 ∧ name ∈ res.2.map Job.seedName)) := by
  refine ⟨round_names_perm h, ?_⟩
  intro hnd name ⟨hok, hfail⟩
  exact round_ok_not_fail h hnd hok hfail

/-- Witness for C2: two jobs, one failing, collected in reversed completion
order. -/
theorem round_partitions_witness :
    (((collect_results (fun t => if t.seedName = "A" then 0 else 1)
        ((assign_gpus [⟨["c1"], -1, "A", none⟩, ⟨["c2"], -1, "B", none⟩]
          [0, 1]).reverse)).1
      ++ ((collect_results (fun t => if t.seedName = "A" then 0 else 1)
        ((assign_gpus [⟨["c1"], -1, "A", none⟩, ⟨["c2"], -1, "B", none⟩]
          [0, 1]).reverse)).2).map Job.seedName).Perm
      (([⟨["c1"], -1, "A", none⟩, ⟨["c2"], -1, "B", none⟩] :
          List Job).map Job.seedName)) ∧
    ¬("A" ∈ (collect_results (fun t => if t.seedName = "A" then 0 else 1)
        ((assign_gpus [⟨["c1"], -1, "A", none⟩, ⟨["c2"], -1, "B", none⟩]
          [0, 1]).reverse)).1 ∧
      "A" ∈ ((collect_results (fun t => if t.seedName = "A" then 0 else 1)
        ((assign_gpus [⟨["c1"], -1, "A", none⟩, ⟨["c2"], -1, "B", none⟩]
          [0, 1]).reverse)).2).map Job.seedName) := by
  have h := round_partitions (fun t => if t.seedName = "A" then 0 else 1)
    [0, 1] [⟨["c1"], -1, "A", none⟩, ⟨["c2"], -1, "B", none⟩] _
    ⟨(assign_gpus [⟨["c1"], -1, "A", none⟩, ⟨["c2"], -1, "B", none⟩]
        [0, 1]).reverse,
      List.reverse_perm _, rfl⟩
  exact ⟨h.1, h.2 (by decide) "A"⟩

/-- Claim C4: GPU assignment is deterministic round-robin — the job at
position `i` of the round's list is assigned `gpu_ids[i % len(gpu_ids)]`,
and overwriting the placeholder gpu stored in the tuples does not change
the assignment. -/
theorem gpu_assignment_deterministic (tasks : List Job) (gpuIds : List Int)
    (hg : 0 < gpuIds.length) (i : Nat) (hi : i < tasks.length) :
    ((assign_gpus tasks gpuIds)[i]?).map Job.gpu
      = some (gpuIds.get ⟨i % gpuIds.length, Nat.mod_lt i hg⟩) ∧
    (∀ g : Int,
      ((assign_gpus (tasks.map fun t =>
          { cmd := t.cmd, gpu := g, seedName := t.seedName,
            logFile := t.logFile }) gpuIds)[i]?).map Job.gpu
        = some (gpuIds.get ⟨i % gpuIds.length, Nat.mod_lt i hg⟩)) := by
  have key : ∀ ts : List Job, i < ts.length →
      ((assign_gpus ts gpuIds)[i]?).map Job.gpu
        = some (gpuIds.get ⟨i % gpuIds.length, Nat.mod_lt i hg⟩) := by
    intro ts hlen
    unfold assign_gpus
    rw [List.getElem?_map, List.getElem?_enum, List.getElem?_eq_getElem hlen]
    simp [List.getD_eq_getElem?_getD,
      List.getElem?_eq_getElem (Nat.mod_lt i hg)]
  refine ⟨key tasks hi, fun g => key _ ?_⟩
  simpa using hi

/-- Witness for C4: three jobs on two GPUs, position 2 wraps to gpu 5. -/
theorem gpu_assignment_deterministic_witness :
    ((assign_gpus [⟨["c1"], -1, "A", none⟩, ⟨["c2"], -1, "B", none⟩,
        ⟨["c3"], -1, "C", none⟩] [5, 7])[2]?).map Job.gpu = some 5 := by
  have h := (gpu_assignment_deterministic
    [⟨["c1"], -1, "A", none⟩, ⟨["c2"], -1, "B", none⟩, ⟨["c3"], -1, "C", none⟩]
    [5, 7] (by decide) 2 (by decide)).1
  exact h.trans rfl

theorem assign_gpus_mem_source (tasks : List Job) (gpuIds : List Int) :
    ∀ t ∈ assign_gpus tasks gpuIds, ∃ u ∈ tasks,
      t.cmd = u.cmd ∧ t.seedName = u.seedName ∧ t.logFile = u.logFile := by
  intro t ht
  unfold assign_gpus at ht
  obtain ⟨p, hp, rfl⟩ := List.mem_map.mp ht
  have hsnd : p.2 ∈ tasks := by
    have henum := List.enum_map_snd tasks
    exact henum ▸ List.mem_map_of_mem Prod.snd hp
  exact ⟨p.2, hsnd, rfl, rfl, rfl⟩

/-- Claim C5 (amended): the failed descriptor returned by a round is exactly
the task tuple submitted in that round — the original command, name, and log
path together with the GPU id assigned in that round — and a retry round
reuses the command, name, and log path unchanged; the GPU id, however, is
recomputed from the job's position in the retry list and is not taken from
the descriptor. -/
theorem failed_descriptor_reuse (outcome : Job → Int) (gpuIds : List Int)
    (tasks : List Job) (res : List String × List Job)
    (h : RoundR outcome gpuIds tasks res) :
    (∀ t ∈ res.2, t ∈ assign_gpus tasks gpuIds ∧
      ∃ u ∈ tasks, t.cmd = u.cmd ∧ t.seedName = u.seedName ∧
        t.logFile = u.logFile) ∧
    (assign_gpus res.2 gpuIds).map Job.cmd = res.2.map Job.cmd ∧
    (assign_gpus res.2 gpuIds).map Job.seedName = res.2.map Job.seedName ∧
    (assign_gpus res.2 gpuIds).map Job.logFile = res.2.map Job.logFile := by
  refine ⟨?_, ?_, ?_, ?_⟩
  · intro t ht
    have hcar := (round_fail_carries h t ht).1
    exact ⟨hcar, assign_gpus_mem_source tasks gpuIds t hcar⟩
  · exact assign_gpus_map_field Job.cmd (fun _ _ => rfl) res.2 gpuIds
  · exact assign_gpus_map_field Job.seedName (fun _ _ => rfl) res.2 gpuIds
  · exact assign_gpus_map_field Job.logFile (fun _ _ => rfl) res.2 gpuIds

/-- Witness for C5 (amended): the retried failed job keeps its command. -/
theorem failed_descriptor_reuse_witness :
    (assign_gpus (collect_results (fun t => if t.seedName = "A" then 0 else 1)
        (assign_gpus [⟨["c1"], -1, "A", none⟩, ⟨["c2"], -1, "B", none⟩]
          [0, 1])).2 [0, 1]).map Job.cmd
      = ((collect_results (fun t => if t.seedName = "A" then 0 else 1)
        (assign_gpus [⟨["c1"], -1, "A", none⟩, ⟨["c2"], -1, "B", none⟩]
          [0, 1])).2).map Job.cmd :=
  (failed_descriptor_reuse (fun t => if t.seedName = "A" then 0 else 1) [0, 1]
    [⟨["c1"], -1, "A", none⟩, ⟨["c2"], -1, "B", none⟩] _
    ⟨_, List.Perm.refl _, rfl⟩).2.1

/-- Counterexample to C5 as stated: with jobs `A`, `B` on GPUs `[0, 1]`,
`B` fails its first attempt on GPU 1, but the retry round reassigns by
position and runs `B` on GPU 0 — the stored GPU id is not reused. -/
theorem failed_descriptor_gpu_changes :
    ¬((assign_gpus (collect_results (fun t => if t.seedName = "A" then 0 else 1)
          (assign_gpus [⟨["c1"], -1, "A", none⟩, ⟨["c2"], -1, "B", none⟩]
            [0, 1])).2 [0, 1]).map Job.gpu
      = ((collect_results (fun t => if t.seedName = "A" then 0 else 1)
          (assign_gpus [⟨["c1"], -1, "A", none⟩, ⟨["c2"], -1, "B", none⟩]
            [0, 1])).2).map Job.gpu) := by
  decide

/-! ### The retry driver of `main` (source lines 178-194) -/

/-- Bookkeeping for one executed round: the job list submitted to
`run_tasks`, the names that succeeded, and the tasks that failed. -/
structure RoundLog where
  sub : List Job
  okR : List String
  failR : List Job

/-- The `while fail and attempts < args.max_retries` loop of `main`
(source lines 183-191), as a relation from the loop state
`(attempts, ok, fail)` to the final `(ok, fail)` pair plus the trace of
retry-round submissions and results. -/
inductive LoopR (outcome : Nat → Job → Int) (gpuIds : List Int)
    (maxRetries : Nat) :
    Nat → List String → List Job →
    List String × List Job × List RoundLog → Prop
  | exit (attempts : Nat) (ok : List String) (fail : List Job)
      (hstop : fail = [] ∨ maxRetries ≤ attempts) :
      LoopR outcome gpuIds maxRetries attempts ok fail (ok, fail, [])
  | step (attempts : Nat) (ok ok2 : List String) (fail fail2 : List Job)
      (res : List String × List Job × List RoundLog)
      (hfail : fail ≠ []) (hlt : attempts < maxRetries)
      (hround : RoundR (outcome (attempts + 1)) gpuIds fail (ok2, fail2))
      (hrest : LoopR outcome gpuIds maxRetries (attempts + 1)
        (ok ++ ok2) fail2 res) :
      LoopR outcome gpuIds maxRetries attempts ok fail
        (res.1, res.2.1, ⟨fail, ok2, fail2⟩ :: res.2.2)

/-- The whole driver (source lines 178-191): round 1 over the full task
list, then the retry loop starting from its result; the trace records every
executed round, the first one included. -/
def DriverR (outcome : Nat → Job → Int) (gpuIds : List Int)
    (maxRetries : Nat) (tasks : List Job)
    (res : List String × List Job × List RoundLog) : Prop :=
  ∃ ok1 fail1 fok ffail tr,
    RoundR (outcome 0) gpuIds tasks (ok1, fail1) ∧
    LoopR outcome gpuIds maxRetries 0 ok1 fail1 (fok, ffail, tr) ∧
    res = (fok, ffail, ⟨tasks, ok1, fail1⟩ :: tr)

/-- How many times a job name is attempted across the recorded rounds. -/
def attempt_total (tr : List RoundLog) (name : String) : Nat :=
  (tr.map (fun rl => (rl.sub.map Job.seedName).count name)).sum

theorem loop_trace_le {outcome : Nat → Job → Int} {gpuIds : List Int}
    {maxRetries : Nat} {attempts : Nat} {ok : List String} {fail : List Job}
    {res : List String × List Job × List RoundLog}
    (h : LoopR outcome gpuIds maxRetries attempts ok fail res) :
    res.2.2.length ≤ maxRetries - attempts := by
  induction h with
  | exit attempts ok fail hstop => simp
  | step attempts ok ok2 fail fail2 res hfail hlt hround hrest ih =>
      simp only [List.length_cons]
      omega

theorem loop_always_fail {outcome : Nat → Job → Int} {gpuIds : List Int}
    {maxRetries : Nat} {name : String}
    (hf : ∀ (r : Nat) (t : Job), t.seedName = name → outcome r t ≠ 0) :
    ∀ {attempts : Nat} {ok : List String} {fail : List Job}
      {res : List String × List Job × List RoundLog},
      LoopR outcome gpuIds maxRetries attempts ok fail res →
      name ∈ fail.map Job.seedName →
      name ∈ res.2.1.map Job.seedName ∧
      res.2.2.length = maxRetries - attempts ∧
      ∀ rl ∈ res.2.2, name ∈ rl.sub.map Job.seedName := by
  intro attempts ok fail res h
  induction h with
  | exit attempts ok fail hstop =>
      intro hmem
      rcases hstop with hnil | hle
      · subst hnil; simp at hmem
      · refine ⟨hmem, ?_, by simp⟩
        simp only [List.length_nil]
        omega
  | step attempts ok ok2 fail fail2 res hfail hlt hround hrest ih =>
      intro hmem
      have hmem2 : name ∈ fail2.map Job.seedName :=
        round_always_fail_mem hround hmem (fun t => hf (attempts + 1) t)
      obtain ⟨h1, h2, h3⟩ := ih hmem2
      refine ⟨h1, ?_, ?_⟩
      · simp only [List.length_cons]
        omega
      · intro rl hrl
        rcases List.mem_cons.mp hrl with rfl | hrl2
        · exact hmem
        · exact h3 rl hrl2

theorem loop_ok_subset {outcome : Nat → Job → Int} {gpuIds : List Int}
    {maxRetries : Nat} {attempts : Nat} {ok : List String} {fail : List Job}
    {res : List String × List Job × List RoundLog}
    (h : LoopR outcome gpuIds maxRetries attempts ok fail res) :
    ∀ x ∈ ok, x ∈ res.1 := by
  induction h with
  | exit attempts ok fail hstop => exact fun x hx => hx
  | step attempts ok ok2 fail fail2 res hfail hlt hround hrest ih =>
      exact fun x hx => ih x (List.mem_append.mpr (Or.inl hx))

theorem loop_pending_subset {outcome : Nat → Job → Int} {gpuIds : List Int}
    {maxRetries : Nat} {attempts : Nat} {ok : List String} {fail : List Job}
    {res : List String × List Job × List RoundLog}
    (h : LoopR outcome gpuIds maxRetries attempts ok fail res) :
    (∀ x ∈ res.2.1.map Job.seedName, x ∈ fail.map Job.seedName) ∧
    (∀ rl ∈ res.2.2, ∀ x ∈ rl.sub.map Job.seedName,
      x ∈ fail.map Job.seedName) := by
  induction h with
  | exit attempts ok fail hstop => exact ⟨fun x hx => hx, by simp⟩
  | step attempts ok ok2 fail fail2 res hfail hlt hround hrest ih =>
      have hsub : ∀ x ∈ fail2.map Job.seedName, x ∈ fail.map Job.seedName :=
        round_fail_names_subset hround
      refine ⟨fun x hx => hsub x (ih.1 x hx), ?_⟩
      intro rl hrl x hx
      rcases List.mem_cons.mp hrl with rfl | hrl2
      · exact hx
      · exact hsub x (ih.2 rl hrl2 x hx)

theorem loop_sub_nodup {outcome : Nat → Job → Int} {gpuIds : List Int}
    {maxRetries : Nat} {attempts : Nat} {ok : List String} {fail : List Job}
    {res : List String × List Job × List RoundLog}
    (h : LoopR outcome gpuIds maxRetries attempts ok fail res) :
    (fail.map Job.seedName).Nodup →
    ∀ rl ∈ res.2.2, (rl.sub.map Job.seedName).Nodup := by
  induction h with
  | exit attempts ok fail hstop => exact fun _ => by simp
  | step attempts ok ok2 fail fail2 res hfail hlt hround hrest ih =>
      intro hnd rl hrl
      rcases List.mem_cons.mp hrl with rfl | hrl2
      · exact hnd
      · exact ih (round_fail_nodup hround hnd) rl hrl2

theorem loop_success_drops {outcome : Nat → Job → Int} {gpuIds : List Int}
    {maxRetries : Nat} {name : String} :
    ∀ {attempts : Nat} {ok : List String} {fail : List Job}
      {res : List String × List Job × List RoundLog},
      LoopR outcome gpuIds maxRetries attempts ok fail res →
      (fail.map Job.seedName).Nodup →
      ∀ tr1 rl tr2, res.2.2 = tr1 ++ rl :: tr2 → name ∈ rl.okR →
        name ∈ res.1 ∧ name ∉ res.2.1.map Job.seedName ∧
        ∀ rl2 ∈ tr2, name ∉ rl2.sub.map Job.seedName := by
  intro attempts ok fail res h
  induction h with
  | exit attempts ok fail hstop =>
      intro hnd tr1 rl tr2 heq hok
      exact absurd heq (by simp)
  | step attempts ok ok2 fail fail2 res hfail hlt hround hrest ih =>
      intro hnd tr1 rl tr2 heq hok
      cases tr1 with
      | nil =>
          simp only [List.nil_append] at heq
          injection heq with h1 h2
          subst h1
          subst h2
          have hnotfail2 : name ∉ fail2.map Job.seedName :=
            round_ok_not_fail hround hnd hok
          refine ⟨loop_ok_subset hrest name
              (List.mem_append.mpr (Or.inr hok)), ?_, ?_⟩
          · intro hmem
            exact hnotfail2 ((loop_pending_subset hrest).1 name hmem)
          · intro rl2 hrl2 hmem
            exact hnotfail2
              ((loop_pending_subset hrest).2 rl2 hrl2 name hmem)
      | cons rl0 tr1x =>
          simp only [List.cons_append] at heq
          injection heq with h1 h2
          exact ih (round_fail_nodup hround hnd) tr1x rl tr2 h2 hok

theorem sum_map_ones {α : Type} (f : α → Nat) :
    ∀ l : List α, (∀ x ∈ l, f x = 1) → (l.map f).sum = l.length := by
  intro l
  induction l with
  | nil => intro _; simp
  | cons a as ih =>
      intro h
      have h1 := h a (List.mem_cons_self a as)
      have h2 := ih (fun x hx => h x (List.mem_cons_of_mem a hx))
      simp [h1, h2, Nat.add_comm]

/-- Claim C3: the retry driver runs at most `maxRetries` rounds beyond the
first; a job that fails on every attempt is submitted to every one of the
`maxRetries + 1` executed rounds (attempted exactly `maxRetries + 1` times
when names are distinct) and ends in the final failed list; a job that
succeeds in some round is in the final succeeded list, not in the final
failed list, and is dropped from all later rounds. -/
theorem retry_driver_behavior (outcome : Nat → Job → Int) (gpuIds : List Int)
    (maxRetries : Nat) (tasks : List Job) (fok : List String)
    (ffail : List Job) (tr : List RoundLog)
    (hdrv : DriverR outcome gpuIds maxRetries tasks (fok, ffail, tr)) :
    tr.length ≤ maxRetries + 1 ∧
    (∀ name, name ∈ tasks.map Job.seedName →
      (∀ (r : Nat) (t : Job), t.seedName = name → outcome r t ≠ 0) →
      name ∈ ffail.map Job.seedName ∧ tr.length = maxRetries + 1 ∧
      (∀ rl ∈ tr, name ∈ rl.sub.map Job.seedName) ∧
      ((tasks.map Job.seedName).Nodup →
        attempt_total tr name = maxRetries + 1)) ∧
    ((tasks.map Job.seedName).Nodup →
      ∀ tr1 rl tr2, tr = tr1 ++ rl :: tr2 → ∀ name ∈ rl.okR,
        name ∈ fok ∧ name ∉ ffail.map Job.seedName ∧
        ∀ rl2 ∈ tr2, name ∉ rl2.sub.map Job.seedName) := by
  obtain ⟨ok1, fail1, fok2, ffail2, tr2, hround1, hloop, heq⟩ := hdrv
  injection heq with ha hrest2
  injection hrest2 with hb hc
  subst ha
  subst hb
  subst hc
  refine ⟨?_, ?_, ?_⟩
  · have hle : tr2.length ≤ maxRetries - 0 := loop_trace_le hloop
    simp only [List.length_cons]
    omega
  · intro name hmem hf
    have hmem1 : name ∈ fail1.map Job.seedName :=
      round_always_fail_mem hround1 hmem (fun t => hf 0 t)
    have halways := loop_always_fail hf hloop hmem1
    have h1 : name ∈ ffail.map Job.seedName := halways.1
    have h2 : tr2.length = maxRetries - 0 := halways.2.1
    have h3 : ∀ rl ∈ tr2, name ∈ rl.sub.map Job.seedName := halways.2.2
    have hlen : (RoundLog.mk tasks ok1 fail1 :: tr2).length = maxRetries + 1 := by
      simp only [List.length_cons]
      omega
    refine ⟨h1, hlen, ?_, ?_⟩
    · intro rl hrl
      rcases List.mem_cons.mp hrl with rfl | hrl2
      · exact hmem
      · exact h3 rl hrl2
    · intro hnd
      have hcounts : ∀ rl ∈ RoundLog.mk tasks ok1 fail1 :: tr2,
          (rl.sub.map Job.seedName).count name = 1 := by
        intro rl hrl
        rcases List.mem_cons.mp hrl with rfl | hrl2
        · exact List.count_eq_one_of_mem hnd hmem
        · exact List.count_eq_one_of_mem
            (loop_sub_nodup hloop (round_fail_nodup hround1 hnd) rl hrl2)
            (h3 rl hrl2)
      unfold attempt_total
      rw [sum_map_ones _ _ hcounts, hlen]
  · intro hnd tr1 rl trb heq2 name hok
    cases tr1 with
    | nil =>
        simp only [List.nil_append] at heq2
        injection heq2 with h1 h2
        subst h1
        subst h2
        have hnotfail1 : name ∉ fail1.map Job.seedName :=
          round_ok_not_fail hround1 hnd hok
        refine ⟨loop_ok_subset hloop name hok, ?_, ?_⟩
        · intro hmem
          exact hnotfail1 ((loop_pending_subset hloop).1 name hmem)
        · intro rl2 hrl2 hmem
          exact hnotfail1 ((loop_pending_subset hloop).2 rl2 hrl2 name hmem)
    | cons rl0 tr1x =>
        simp only [List.cons_append] at heq2
        injection heq2 with h1 h2
        exact loop_success_drops hloop (round_fail_nodup hround1 hnd)
          tr1x rl trb h2 hok

/-- Witness for C3: one always-failing job, one GPU, `max_retries = 1` —
the job is attempted in both rounds and ends in the final failed list. -/
theorem retry_driver_behavior_witness :
    "A" ∈ ([⟨["c"], 0, "A", none⟩] : List Job).map Job.seedName ∧
    ([(⟨[⟨["c"], -1, "A", none⟩], [], [⟨["c"], 0, "A", none⟩]⟩ : RoundLog),
      ⟨[⟨["c"], 0, "A", none⟩], [], [⟨["c"], 0, "A", none⟩]⟩] :
        List RoundLog).length = 1 + 1 := by
  have hexit : LoopR (fun _ _ => 1) [0] 1 1 [] [⟨["c"], 0, "A", none⟩]
      ([], [⟨["c"], 0, "A", none⟩], []) :=
    LoopR.exit 1 [] [⟨["c"], 0, "A", none⟩] (Or.inr (le_refl 1))
  have hstep : LoopR (fun _ _ => 1) [0] 1 0 [] [⟨["c"], 0, "A", none⟩]
      ([], [⟨["c"], 0, "A", none⟩],
       [⟨[⟨["c"], 0, "A", none⟩], [], [⟨["c"], 0, "A", none⟩]⟩]) :=
    LoopR.step 0 [] [] [⟨["c"], 0, "A", none⟩] [⟨["c"], 0, "A", none⟩]
      ([], [⟨["c"], 0, "A", none⟩], []) (by decide) (by decide)
      ⟨assign_gpus [⟨["c"], 0, "A", none⟩] [0], List.Perm.refl _, by decide⟩
      hexit
  have hdrv : DriverR (fun _ _ => 1) [0] 1 [⟨["c"], -1, "A", none⟩]
      ([], [⟨["c"], 0, "A", none⟩],
       [⟨[⟨["c"], -1, "A", none⟩], [], [⟨["c"], 0, "A", none⟩]⟩,
        ⟨[⟨["c"], 0, "A", none⟩], [], [⟨["c"], 0, "A", none⟩]⟩]) :=
    ⟨[], [⟨["c"], 0, "A", none⟩], [], [⟨["c"], 0, "A", none⟩],
     [⟨[⟨["c"], 0, "A", none⟩], [], [⟨["c"], 0, "A", none⟩]⟩],
     ⟨assign_gpus [⟨["c"], -1, "A", none⟩] [0], List.Perm.refl _, by decide⟩,
     hstep, rfl⟩
  have h := (retry_driver_behavior (fun _ _ => 1) [0] 1
      [⟨["c"], -1, "A", none⟩] _ _ _ hdrv).2.1 "A" (by decide)
      (fun _ _ _ => by decide)
  exact ⟨h.1, h.2.1⟩

/-! ### The bounded worker pool (source line 84) -/

/-- Counts of jobs in each lifecycle stage during a round. -/
structure PoolState where
  pendingCount : Nat
  runningCount : Nat
  doneCount : Nat

/-- Modelled from the spec: the admission discipline of the bounded worker
pool (`ThreadPoolExecutor`, not part of this repository) — a pending job
starts running only while fewer than `maxWorkers` jobs are running, and a
running job may complete; no other transition exists. -/
inductive PoolStep (maxWorkers : Nat) : PoolState → PoolState → Prop
  | start (s : PoolState) (hroom : s.runningCount < maxWorkers)
      (hpend : 0 < s.pendingCount) :
      PoolStep maxWorkers s
        ⟨s.pendingCount - 1, s.runningCount + 1, s.doneCount⟩
  | finish (s : PoolState) (hrun : 0 < s.runningCount) :
      PoolStep maxWorkers s
        ⟨s.pendingCount, s.runningCount - 1, s.doneCount + 1⟩

/-- States a round can reach from `jobCount` pending jobs and an idle pool. -/
def pool_reachable (maxWorkers : Nat) (jobCount : Nat) (s : PoolState) : Prop :=
  Relation.ReflTransGen (PoolStep maxWorkers) ⟨jobCount, 0, 0⟩ s

/-- The pool size `run_tasks` configures: `max_workers=len(gpu_ids)`
(source line 84). -/
def run_tasks_max_workers (gpuIds : List Int) : Nat := gpuIds.length

/-- Claim C9: with the pool sized to the GPU id list as in `run_tasks`, no
reachable state of a round has more than `len(gpu_ids)` jobs running,
however many jobs the round submits. -/
theorem concurrency_bound (gpuIds : List Int) (jobCount : Nat)
    (s : PoolState)
    (h : pool_reachable (run_tasks_max_workers gpuIds) jobCount s) :
    s.runningCount ≤ gpuIds.length := by
  unfold pool_reachable at h
  induction h with
  | refl => exact Nat.zero_le _
  | tail hsteps hstep ih =>
      cases hstep with
      | start hroom hpend => exact hroom
      | finish hrun => exact le_trans (Nat.sub_le _ _) ih

/-- Witness for C9: a state reached by filling both slots of a two-GPU pool
from five pending jobs. -/
theorem concurrency_bound_witness :
    (⟨3, 2, 0⟩ : PoolState).runningCount ≤ ([0, 1] : List Int).length := by
  refine concurrency_bound [0, 1] 5 ⟨3, 2, 0⟩ ?_
  have h1 : PoolStep (run_tasks_max_workers [0, 1]) ⟨5, 0, 0⟩ ⟨4, 1, 0⟩ :=
    PoolStep.start ⟨5, 0, 0⟩ (by decide) (by decide)
  have h2 : PoolStep (run_tasks_max_workers [0, 1]) ⟨4, 1, 0⟩ ⟨3, 2, 0⟩ :=
    PoolStep.start ⟨4, 1, 0⟩ (by decide) (by decide)
  exact Relation.ReflTransGen.tail (Relation.ReflTransGen.single h1) h2

end OpenfoldBatch
